import Mathlib

/-!
Shallow embedding of the trading-agent backtesting core
(src/lib/indicators.ts, src/lib/strategies.ts, src/lib/ai-models.ts).

Modelling conventions:
* JavaScript numbers are modelled as exact rationals.  The rounding helper
  parseFloat(x.toFixed(2)) is modelled as rounding x*100 to the nearest
  integer (ties up) divided by 100; no claim below depends on a tie or on
  binary floating-point artefacts.
* JavaScript array index reads that can be out of bounds (prices[-1] on an
  empty array) are modelled with Option: none marks the out-of-bounds read.
* Division by zero follows the rational convention x / 0 = 0.  The one place
  where the JavaScript NaN semantics of 0/0 is observable (the risk/reward
  comparison in AIRiskManager.calculateRiskMetrics) is modelled explicitly
  with a zero-denominator case, see riskRewardRejects.
-/

/-- parseFloat(x.toFixed(2)): round to 2 decimal places. -/
def round2 (x : ℚ) : ℚ := ((round (x * 100) : ℤ) : ℚ) / 100

/-- JavaScript arr.slice(-n): the last n elements (the whole array when n = 0,
since slice(-0) = slice(0)). -/
def jsSliceLast (l : List ℚ) (n : ℕ) : List ℚ :=
  if n = 0 then l else l.drop (l.length - n)

/-- Per-step price changes: changes[i-1] = prices[i] - prices[i-1]
(indicators.ts lines 19-22). -/
def priceChanges (prices : List ℚ) : List ℚ :=
  List.zipWith (fun a b => a - b) prices.tail prices

/-- Translated from calculateRSI (src/lib/indicators.ts lines 13-48).
Computes gains and losses from per-step changes, seeds the averages with the
simple mean of the first period changes, applies Wilder smoothing over the
remaining changes, and returns the 2-dp rounding of 100 - 100/(1+rs); returns
50 when fewer than period+1 prices and 100 when the smoothed average loss is
zero. -/
def calculateRSI (prices : List ℚ) (period : ℕ) : ℚ :=
  if prices.length < period + 1 then 50
  else
    let changes := priceChanges prices
    let gains := changes.map (fun change => if 0 < change then change else 0)
    let losses := changes.map (fun change => if change < 0 then |change| else 0)
    let avgGain0 := (gains.take period).sum / (period : ℚ)
    let avgLoss0 := (losses.take period).sum / (period : ℚ)
    let avgGain := (gains.drop period).foldl
      (fun avg g => (avg * ((period : ℚ) - 1) + g) / (period : ℚ)) avgGain0
    let avgLoss := (losses.drop period).foldl
      (fun avg l => (avg * ((period : ℚ) - 1) + l) / (period : ℚ)) avgLoss0
    if avgLoss = 0 then 100
    else
      let rs := avgGain / avgLoss
      round2 (100 - 100 / (1 + rs))

/-- Translated from calculateSMA (src/lib/indicators.ts lines 57-65).
With insufficient history the source returns prices[prices.length - 1], an
out-of-bounds read on an empty array, modelled by getLast?. -/
def calculateSMA (prices : List ℚ) (period : ℕ) : Option ℚ :=
  if prices.length < period then prices.getLast?
  else some (round2 ((jsSliceLast prices period).sum / (period : ℚ)))

/-- Translated from calculateEMA (src/lib/indicators.ts lines 74-89).
The seed is calculateSMA(prices.slice(0, period), period); in the main branch
that call always hits its own main branch (the slice has exactly period
elements), so the getD default is never read. -/
def calculateEMA (prices : List ℚ) (period : ℕ) : Option ℚ :=
  if prices.length < period then prices.getLast?
  else
    let sma := (calculateSMA (prices.take period) period).getD 0
    let multiplier : ℚ := 2 / ((period : ℚ) + 1)
    let ema := (prices.drop period).foldl
      (fun ema p => (p - ema) * multiplier + ema) sma
    some (round2 ema)

/-- Translated from calculateBollinger (src/lib/indicators.ts lines 99-131),
restricted to the middle band and the variance (standardDeviation squared).
The source additionally returns upper/lower = middle plus/minus
stdDev * sqrt(variance) rounded to 2 dp; the square root is irrational and is
not representable over the rationals, so the band arithmetic after the
variance is omitted here.  In the insufficient-history branch the source
returns flat bands at prices[prices.length - 1] and computes no variance; we
record variance 0 there. -/
def calculateBollinger (prices : List ℚ) (period : ℕ) : Option (ℚ × ℚ) :=
  if prices.length < period then
    (prices.getLast?).map (fun lastPrice => (lastPrice, 0))
  else
    let middle := (calculateSMA prices period).getD 0
    let slice := jsSliceLast prices period
    let variance := (slice.map (fun price => (price - middle) ^ 2)).sum / (period : ℚ)
    some (middle, variance)

/-- Exact (unrounded) mean of the last period prices. -/
def windowMean (prices : List ℚ) (period : ℕ) : ℚ :=
  (jsSliceLast prices period).sum / (period : ℚ)

/-- The EMA recursion of the source (indicators.ts lines 83-86) from a given
seed: one step per price after the first period prices. -/
def emaLoop (prices : List ℚ) (period : ℕ) (seed : ℚ) : ℚ :=
  (prices.drop period).foldl
    (fun ema p => (p - ema) * (2 / ((period : ℚ) + 1)) + ema) seed

/-- The EMA as the specification words it: the recursion seeded with the
EXACT (unrounded) mean of the first period prices, rounded once at the end. -/
def emaExactSeed (prices : List ℚ) (period : ℕ) : ℚ :=
  round2 (emaLoop prices period ((prices.take period).sum / (period : ℚ)))

/-- Wilder smoothing step, as the specification words it:
avg = (avg*(period-1) + value)/period. -/
def wilderStep (period : ℕ) (avg value : ℚ) : ℚ :=
  (avg * ((period : ℚ) - 1) + value) / (period : ℚ)

/-- Seed (simple mean of the first period values) followed by Wilder
smoothing over the remaining values. -/
def wilderSmooth (period : ℕ) (values : List ℚ) : ℚ :=
  (values.drop period).foldl (wilderStep period)
    ((values.take period).sum / (period : ℚ))

/-- The smoothed average gain of the RSI, as the specification words it. -/
def rsiAvgGain (prices : List ℚ) (period : ℕ) : ℚ :=
  wilderSmooth period ((priceChanges prices).map (fun c => if 0 < c then c else 0))

/-- The smoothed average loss of the RSI, as the specification words it. -/
def rsiAvgLoss (prices : List ℚ) (period : ℕ) : ℚ :=
  wilderSmooth period ((priceChanges prices).map (fun c => if c < 0 then |c| else 0))

/-- RSI as the specification words it (section 4.1 of the spec), with the
2-dp display rounding of the final value required by the same section. -/
def specRSI (prices : List ℚ) (period : ℕ) : ℚ :=
  if prices.length < period + 1 then 50
  else if rsiAvgLoss prices period = 0 then 100
  else round2 (100 - 100 / (1 + rsiAvgGain prices period / rsiAvgLoss prices period))

/-! ## Strategies and risk manager (src/lib/strategies.ts, src/lib/ai-models.ts) -/

/-- Trade action of a signal (strategies.ts TradingSignal.action). -/
inductive TradeAction
  | buy
  | sell
  | hold
deriving DecidableEq, Repr

/-- Translated from the TradingSignal interface (strategies.ts lines 20-28).
The Date timestamp is not observable by any embedded computation and is
dropped. -/
structure TradingSignal where
  symbol : String
  action : TradeAction
  confidence : ℚ
  reason : String
  targetPrice : Option ℚ := none
  stopLoss : Option ℚ := none
deriving DecidableEq, Repr

/-- Translated from the MarketData interface (strategies.ts lines 6-18); the
optional bollinger field is never read by the embedded code paths and is
dropped. -/
structure MarketData where
  symbol : String
  price : ℚ
  volume : ℚ
  rsi : Option ℚ := none
  sma20 : Option ℚ := none
  sma50 : Option ℚ := none
deriving DecidableEq, Repr

/-- JavaScript truthiness of an optional number: undefined and 0 are falsy. -/
def jsTruthy : Option ℚ → Bool
  | none => false
  | some x => x != 0

/-- Translated from TradingStrategy.calculateConfidence (strategies.ts lines
139-148): min(distanceFromThreshold / 20, 1) rounded to 2 dp; the
below-or-above flag selects the same value on both branches in the source. -/
def calculateConfidence (value threshold : ℚ) (below : Bool) : ℚ :=
  round2 (if below then min (|value - threshold| / 20) 1
          else min (|value - threshold| / 20) 1)

/-- Translated from TradingStrategy.meanReversionStrategy (strategies.ts
lines 70-98).  The numeric interpolation inside the reason strings is not
modelled; the constant prefix of each reason string is kept. -/
def meanReversionStrategy (data : MarketData) : Option TradingSignal :=
  if ¬ jsTruthy data.rsi then none
  else
    let rsi := data.rsi.getD 0
    if rsi < 30 then
      some { symbol := data.symbol, action := .buy
             confidence := calculateConfidence rsi 30 true
             reason := "RSI oversold"
             targetPrice := some (data.price * (105 / 100))
             stopLoss := some (data.price * (97 / 100)) }
    else if 70 < rsi then
      some { symbol := data.symbol, action := .sell
             confidence := calculateConfidence rsi 70 false
             reason := "RSI overbought"
             targetPrice := some (data.price * (95 / 100))
             stopLoss := some (data.price * (103 / 100)) }
    else none

/-- Translated from TradingStrategy.momentumStrategy (strategies.ts lines
104-134). -/
def momentumStrategy (data : MarketData) : Option TradingSignal :=
  if ¬ (jsTruthy data.sma20 && jsTruthy data.sma50) then none
  else
    let sma20 := data.sma20.getD 0
    let sma50 := data.sma50.getD 0
    if sma50 < sma20 ∧ sma20 < data.price then
      some { symbol := data.symbol, action := .buy
             confidence := 65 / 100
             reason := "Golden cross detected"
             targetPrice := some (data.price * (108 / 100))
             stopLoss := some (data.price * (95 / 100)) }
    else if sma20 < sma50 ∧ data.price < sma20 then
      some { symbol := data.symbol, action := .sell
             confidence := 65 / 100
             reason := "Death cross detected"
             targetPrice := some (data.price * (92 / 100))
             stopLoss := some (data.price * (105 / 100)) }
    else none

/-- Translated from the risk/reward branch of
AIRiskManager.calculateRiskMetrics (ai-models.ts lines 91-100).  The branch
runs only when stopLoss and targetPrice are both truthy; the ratio is
abs(target - stop) / abs(stop - target).  When the two are equal the
JavaScript ratio is NaN (0/0) and the comparison NaN < 0.8 is false, which is
modelled by the explicit zero-denominator case. -/
def riskRewardRejects (signal : TradingSignal) : Bool :=
  if jsTruthy signal.stopLoss && jsTruthy signal.targetPrice then
    let t := signal.targetPrice.getD 0
    let s := signal.stopLoss.getD 0
    if |s - t| = 0 then false
    else decide (|t - s| / |s - t| < 8 / 10)
  else false

/-- Translated from AIRiskManager.calculateRiskMetrics (ai-models.ts lines
78-115): approved is true unless the confidence is below 0.25 or the
risk/reward branch rejects. -/
def riskApproved (signal : TradingSignal) : Bool :=
  !(decide (signal.confidence < 1 / 4)) && !(riskRewardRejects signal)

/-- Translated from AIRiskManager.assessRisk (ai-models.ts lines 56-73): the
loop pushes exactly the approved signals in input order. -/
def assessRisk (signals : List TradingSignal) : List TradingSignal :=
  signals.filter riskApproved

/-- Translated from TradingStrategy.generateSignals (strategies.ts lines
40-64): for every market-data entry push the mean-reversion signal then the
momentum signal when each fires, then pass the batch through
assessRisk (the risk manager is always present on the backtest path, wired
in the Backtester constructor). -/
def generateSignals (marketData : List MarketData) : List TradingSignal :=
  assessRisk (marketData.flatMap
    (fun data => (meanReversionStrategy data).toList ++ (momentumStrategy data).toList))

/-! ## Backtesting engine (src/lib/ai-models.ts, Backtester) -/

/-- The strategy mode of the backtest config (ai-models.ts line 186). -/
inductive StrategyMode
  | mean_reversion
  | momentum
  | both
deriving DecidableEq, Repr

/-- Translated from BacktestConfig (ai-models.ts lines 184-193) after the
constructor has applied the defaults (commission 0.1, slippage 0.05); the
symbol list and date range only drive the data fetch, which is outside the
simulation core embedded here. -/
structure BacktestConfig where
  strategy : StrategyMode
  initialCapital : ℚ
  positionSize : ℚ
  commission : ℚ := 1 / 10
  slippage : ℚ := 1 / 20
deriving DecidableEq, Repr

/-- Translated from the Position interface (ai-models.ts lines 245-251);
the entry date is modelled as a natural number, the entry id as a string. -/
structure Position where
  symbol : String
  quantity : ℤ
  entryPrice : ℚ
  entryDate : ℕ
  entryId : String
deriving DecidableEq, Repr

/-- Translated from BacktestTrade (ai-models.ts lines 195-206). -/
structure BacktestTrade where
  id : String
  date : ℕ
  symbol : String
  action : TradeAction
  price : ℚ
  quantity : ℤ
  commission : ℚ
  pnl : Option ℚ := none
  pnlPercent : Option ℚ := none
  reason : String
deriving DecidableEq, Repr

/-- openPositions.has(symbol) on the insertion-ordered position map. -/
def posHas (l : List (String × Position)) (k : String) : Bool :=
  l.any (fun p => p.1 == k)

/-- openPositions.get(symbol). -/
def posGet (l : List (String × Position)) (k : String) : Option Position :=
  (l.find? (fun p => p.1 == k)).map (fun p => p.2)

/-- openPositions.set(symbol, v): replace the binding in place when the key
is present, append it otherwise (JavaScript Map insertion-order semantics). -/
def posSet (l : List (String × Position)) (k : String) (v : Position) :
    List (String × Position) :=
  if posHas l k then l.map (fun p => if p.1 == k then (k, v) else p)
  else l ++ [(k, v)]

/-- openPositions.delete(symbol). -/
def posDelete (l : List (String × Position)) (k : String) :
    List (String × Position) :=
  l.filter (fun p => ¬ p.1 == k)

/-- Result of Backtester.canExecuteSignal (ai-models.ts lines 481-515). -/
structure ExecCheck where
  can : Bool
  reason : Option String := none
deriving DecidableEq, Repr

/-- Translated from Backtester.canExecuteSignal (ai-models.ts lines 481-515).
A BUY is refused when a position is already open for the symbol or when the
position value capital*positionSize/100 exceeds the capital; a SELL is
refused when no position is open; HOLD is always refused. -/
def canExecuteSignal (cfg : BacktestConfig) (signal : TradingSignal)
    (capital : ℚ) (openPositions : List (String × Position)) : ExecCheck :=
  match signal.action with
  | .hold => { can := false, reason := some ("HOLD signal") }
  | .buy =>
    if posHas openPositions signal.symbol then
      { can := false, reason := some ("Already have position") }
    else
      let positionValue := capital * cfg.positionSize / 100
      if positionValue > capital then
        { can := false, reason := some ("Insufficient capital") }
      else { can := true }
  | .sell =>
    if ¬ posHas openPositions signal.symbol then
      { can := false, reason := some ("No position to sell") }
    else { can := true }

/-- Translated from Backtester.executeTrade (ai-models.ts lines 520-597).
Returns the produced trade (none when the trade is silently skipped) together
with the updated open-position map.  When targetPrice is undefined the source
uses price 0; the subsequent rational division by zero yields quantity 0 for
a BUY (the source would produce an Infinity quantity there; no embedded claim
exercises that branch). -/
def executeTrade (cfg : BacktestConfig) (signal : TradingSignal) (date : ℕ)
    (capital : ℚ) (openPositions : List (String × Position)) :
    Option BacktestTrade × List (String × Position) :=
  let tradeId := signal.symbol ++ "-" ++ toString date
  match signal.action with
  | .buy =>
    let positionValue := capital * cfg.positionSize / 100
    let priceWithSlippage :=
      match signal.targetPrice with
      | some t => t * (1 + cfg.slippage / 100)
      | none => 0
    let quantity : ℤ := ⌊positionValue / priceWithSlippage⌋
    if quantity = 0 then (none, openPositions)
    else
      let commission := priceWithSlippage * quantity * cfg.commission / 100
      (some { id := tradeId, date, symbol := signal.symbol, action := .buy
              price := priceWithSlippage, quantity, commission
              reason := signal.reason },
       posSet openPositions signal.symbol
         { symbol := signal.symbol, quantity, entryPrice := priceWithSlippage
           entryDate := date, entryId := tradeId })
  | .sell =>
    match posGet openPositions signal.symbol with
    | none => (none, openPositions)
    | some position =>
      let exitPrice :=
        match signal.targetPrice with
        | some t => t * (1 - cfg.slippage / 100)
        | none => 0
      let commission := exitPrice * position.quantity * cfg.commission / 100
      let pnl := (exitPrice - position.entryPrice) * position.quantity
      let pnlPercent := (exitPrice - position.entryPrice) / position.entryPrice * 100
      (some { id := tradeId ++ "-exit", date, symbol := signal.symbol
              action := .sell, price := exitPrice, quantity := position.quantity
              commission, pnl := some (pnl - commission * 2)
              pnlPercent := some pnlPercent, reason := signal.reason },
       posDelete openPositions signal.symbol)
  | .hold => (none, openPositions)

/-- Running state of the simulation loop: capital, open positions and the
trade log (ai-models.ts lines 340-346). -/
structure SimState where
  capital : ℚ
  positions : List (String × Position)
  trades : List BacktestTrade
deriving DecidableEq, Repr

/-- Translated from the per-signal body of the simulation loop (ai-models.ts
lines 394-431): check canExecuteSignal, execute the trade, append it to the
trade log and update the capital (BUY subtracts cost plus commission, SELL
adds proceeds minus commission plus pnl). -/
def processSignal (cfg : BacktestConfig) (date : ℕ) (st : SimState)
    (signal : TradingSignal) : SimState :=
  if (canExecuteSignal cfg signal st.capital st.positions).can then
    match executeTrade cfg signal date st.capital st.positions with
    | (some trade, positions) =>
      let capital :=
        if trade.action = .buy then
          st.capital - (trade.price * trade.quantity + trade.commission)
        else
          match trade.pnl with
          | some pnl => st.capital + (trade.price * trade.quantity - trade.commission + pnl)
          | none => st.capital
      { capital, positions, trades := st.trades ++ [trade] }
    | (none, positions) => { st with positions }
  else st

/-- Translated from the mark-to-market loop of Backtester.simulateTrading
(ai-models.ts lines 433-441): for every open position whose symbol has market
data for the day, capital += quantity*closePrice - quantity*entryPrice.  The
closes argument models marketDataForDay.find by symbol. -/
def mtmUpdate (closes : String → Option ℚ) (capital : ℚ)
    (positions : List (String × Position)) : ℚ :=
  positions.foldl
    (fun cap p =>
      match closes p.1 with
      | some price => cap + ((p.2.quantity : ℚ) * price - (p.2.quantity : ℚ) * p.2.entryPrice)
      | none => cap)
    capital

/-- Translated from the signal-generation step of the Backtester: the
constructor (ai-models.ts lines 259-267) builds the TradingStrategy from the
risk manager only — the config strategy mode is not passed on — and the day
loop (line 391) calls strategy.generateSignals on the day market data, so the
generated signals are those of generateSignals for every config. -/
def backtestDaySignals (cfg : BacktestConfig) (marketData : List MarketData) :
    List TradingSignal :=
  generateSignals marketData

/-! ## Helper lemmas -/

theorem posHas_false_iff {l : List (String × Position)} {k : String} :
    posHas l k = false ↔ ∀ p ∈ l, p.1 ≠ k := by
  simp [posHas]

theorem posGet_cons (x : String × Position) (xs : List (String × Position))
    (k : String) :
    posGet (x :: xs) k = if x.1 == k then some x.2 else posGet xs k := by
  by_cases h : (x.1 == k) = true
  · simp [posGet, List.find?, h]
  · simp only [Bool.not_eq_true] at h
    simp [posGet, List.find?, h]

theorem posGet_posSet_self (l : List (String × Position)) (k : String)
    (v : Position) : posGet (posSet l k v) k = some v := by
  induction l with
  | nil => simp [posSet, posHas, posGet, List.find?]
  | cons p rest ih =>
    by_cases hp : (p.1 == k) = true
    · have hhas : posHas (p :: rest) k = true := by simp [posHas, hp]
      simp only [posSet, hhas, if_true, List.map_cons, hp, if_pos]
      rw [posGet_cons]
      simp
    · have hp' : (p.1 == k) = false := by simpa using hp
      by_cases hr : posHas rest k = true
      · have hhas : posHas (p :: rest) k = true := by
          simp only [posHas, List.any_cons] at hr ⊢
          simp [hr]
        simp only [posSet, hhas, if_true, List.map_cons, hp', Bool.false_eq_true,
          if_false]
        rw [posGet_cons, if_neg (by simp [hp'])]
        have h2 := ih
        rw [posSet, if_pos hr] at h2
        exact h2
      · have hr' : posHas rest k = false := by simpa using hr
        have hhas : posHas (p :: rest) k = false := by
          simp only [posHas, List.any_cons] at hr' ⊢
          simp [hp', hr']
        simp only [posSet, hhas, Bool.false_eq_true, if_false, List.cons_append]
        rw [posGet_cons, if_neg (by simp [hp'])]
        have h2 := ih
        unfold posSet at h2
        rw [if_neg hr] at h2
        exact h2

theorem posSet_of_not_has {l : List (String × Position)} {k : String}
    (v : Position) (h : posHas l k = false) : posSet l k v = l ++ [(k, v)] := by
  simp [posSet, h]

theorem keys_nodup_posSet {l : List (String × Position)} {k : String}
    (v : Position) (hl : (l.map Prod.fst).Nodup) (h : posHas l k = false) :
    ((posSet l k v).map Prod.fst).Nodup := by
  rw [posSet_of_not_has v h]
  rw [posHas_false_iff] at h
  simp only [List.map_append, List.map_cons, List.map_nil]
  rw [List.nodup_append]
  refine ⟨hl, List.nodup_singleton k, ?_⟩
  intro a ha hb
  simp only [List.mem_singleton] at hb
  subst hb
  obtain ⟨p, hp, rfl⟩ := List.mem_map.mp ha
  exact h p hp rfl

theorem keys_nodup_posDelete {l : List (String × Position)} (k : String)
    (hl : (l.map Prod.fst).Nodup) :
    ((posDelete l k).map Prod.fst).Nodup := by
  exact hl.sublist (List.Sublist.map Prod.fst (List.filter_sublist l))

theorem countP_le_one_of_keys_nodup {l : List (String × Position)}
    (hl : (l.map Prod.fst).Nodup) (sym : String) :
    l.countP (fun p => p.1 == sym) ≤ 1 := by
  have h1 : l.countP (fun p => p.1 == sym) = (l.map Prod.fst).countP (fun a => a == sym) := by
    rw [List.countP_map]
    rfl
  rw [h1]
  have := (List.nodup_iff_count_le_one.mp hl) sym
  simpa [List.count] using this

theorem canExecuteSignal_can_eq (cfg : BacktestConfig) (sig : TradingSignal)
    (cap : ℚ) (pos : List (String × Position)) :
    (canExecuteSignal cfg sig cap pos).can = true ↔
      ((sig.action = .buy ∧ posHas pos sig.symbol = false ∧
          ¬ cap * cfg.positionSize / 100 > cap)
       ∨ (sig.action = .sell ∧ posHas pos sig.symbol = true)) := by
  cases h : sig.action with
  | hold => simp [canExecuteSignal, h]
  | buy =>
    by_cases hp : posHas pos sig.symbol
    · simp [canExecuteSignal, h, hp]
    · by_cases hc : cap * cfg.positionSize / 100 > cap
      · simp [canExecuteSignal, h, hp, hc]
      · simp [canExecuteSignal, h, hp, hc]
  | sell =>
    by_cases hp : posHas pos sig.symbol
    · simp [canExecuteSignal, h, hp]
    · simp [canExecuteSignal, h, hp]

theorem keys_nodup_processSignal (cfg : BacktestConfig) (date : ℕ)
    (st : SimState) (sig : TradingSignal)
    (h : (st.positions.map Prod.fst).Nodup) :
    (((processSignal cfg date st sig).positions).map Prod.fst).Nodup := by
  by_cases hcan : (canExecuteSignal cfg sig st.capital st.positions).can = true
  · rcases hq : executeTrade cfg sig date st.capital st.positions with ⟨ot, ps⟩
    have hgoal : (processSignal cfg date st sig).positions = ps := by
      unfold processSignal
      rw [if_pos hcan, hq]
      cases ot <;> rfl
    rw [hgoal]
    obtain ⟨ssym, sact, sconf, srsn, stp, ssl⟩ := sig
    rcases (canExecuteSignal_can_eq cfg ⟨ssym, sact, sconf, srsn, stp, ssl⟩
        st.capital st.positions).mp hcan with ⟨hbuy, hhas, _⟩ | ⟨hsell, hhas⟩
    · simp only at hbuy
      subst hbuy
      unfold executeTrade at hq
      simp only at hq
      split at hq
      · injection hq with h1 h2
        subst h2
        exact h
      · injection hq with h1 h2
        subst h2
        exact keys_nodup_posSet _ h hhas
    · simp only at hsell
      subst hsell
      unfold executeTrade at hq
      simp only at hq
      cases hg : posGet st.positions ssym with
      | none =>
        rw [hg] at hq
        injection hq with h1 h2
        subst h2
        exact h
      | some position =>
        rw [hg] at hq
        injection hq with h1 h2
        subst h2
        exact keys_nodup_posDelete _ h
  · simp only [Bool.not_eq_true] at hcan
    simp [processSignal, hcan, h]

theorem keys_nodup_foldl (cfg : BacktestConfig) (date : ℕ)
    (signals : List TradingSignal) (st : SimState)
    (h : (st.positions.map Prod.fst).Nodup) :
    (((signals.foldl (processSignal cfg date) st).positions).map Prod.fst).Nodup := by
  induction signals generalizing st with
  | nil => simpa using h
  | cons sig rest ih =>
    simpa using ih (processSignal cfg date st sig)
      (keys_nodup_processSignal cfg date st sig h)

/-! ## Claim theorems -/

/-- C4 (corrected): canExecuteSignal approves a BUY exactly when no open
position exists for the symbol and the position value
capital*positionSizePercent/100 does NOT exceed the capital (the source
checks positionValue > capital, not positionValue > 0); it approves a SELL
exactly when an open position exists for the symbol; it never approves a
HOLD. -/
theorem canExecuteSignal_characterization (cfg : BacktestConfig)
    (sig : TradingSignal) (cap : ℚ) (pos : List (String × Position)) :
    (canExecuteSignal cfg sig cap pos).can = true ↔
      ((sig.action = .buy ∧ posHas pos sig.symbol = false ∧
          ¬ cap * cfg.positionSize / 100 > cap)
       ∨ (sig.action = .sell ∧ posHas pos sig.symbol = true)) :=
  canExecuteSignal_can_eq cfg sig cap pos

/-- C4 counterexample: with capital 0 and positionSizePercent 10 a BUY with
no open position is approved by canExecuteSignal although
capital*positionSizePercent/100 = 0 is not positive, refuting the claim that
a BUY is executable only if capital*positionSizePercent/100 > 0. -/
theorem canExecuteSignal_zero_capital_cex :
    (canExecuteSignal ⟨.both, 100000, 10, 1 / 10, 1 / 20⟩
        ⟨"A", .buy, 1, "r", some 100, none⟩ 0 []).can = true ∧
      ¬ ((0 : ℚ) * 10 / 100 > 0) := by
  refine ⟨?_, by norm_num⟩
  norm_num [canExecuteSignal, posHas]

/-- C5 (confirmed): starting from no open positions, after processing any
sequence of signals through the simulation step there is at most one open
position per symbol, and canExecuteSignal never approves a BUY for a symbol
that already has an open position. -/
theorem at_most_one_open_position (cfg : BacktestConfig) (date : ℕ)
    (cap0 : ℚ) (signals : List TradingSignal) (sym : String) :
    ((signals.foldl (processSignal cfg date)
        { capital := cap0, positions := [], trades := [] }).positions.countP
      (fun p => p.1 == sym)) ≤ 1 ∧
    ∀ (sig : TradingSignal) (cap : ℚ) (pos : List (String × Position)),
      sig.action = .buy → posHas pos sig.symbol = true →
      (canExecuteSignal cfg sig cap pos).can = false := by
  constructor
  · exact countP_le_one_of_keys_nodup
      (keys_nodup_foldl cfg date signals _ (by simp)) sym
  · intro sig cap pos hbuy hhas
    cases hc : (canExecuteSignal cfg sig cap pos).can with
    | false => rfl
    | true =>
      rcases (canExecuteSignal_can_eq cfg sig cap pos).mp hc with
        ⟨_, hhas', _⟩ | ⟨hsell, _⟩
      · rw [hhas] at hhas'
        exact absurd hhas' (by simp)
      · rw [hbuy] at hsell
        exact absurd hsell (by simp)

/-- C5 witness: the invariant evaluated after one executed BUY, and a
concrete BUY with an existing open position that canExecuteSignal refuses. -/
theorem at_most_one_open_position_witness :
    ((([⟨"A", .buy, 1, "r", some 100, none⟩] : List TradingSignal).foldl
        (processSignal ⟨.both, 100000, 10, 1 / 10, 1 / 20⟩ 0)
        { capital := 100000, positions := [], trades := [] }).positions.countP
      (fun p => p.1 == "A")) ≤ 1 ∧
    (canExecuteSignal ⟨.both, 100000, 10, 1 / 10, 1 / 20⟩
        ⟨"A", .buy, 1, "r", some 100, none⟩ 100000
        [("A", ⟨"A", 100, 100, 0, "A-0"⟩)]).can = false :=
  ⟨(at_most_one_open_position ⟨.both, 100000, 10, 1 / 10, 1 / 20⟩ 0 100000
      [⟨"A", .buy, 1, "r", some 100, none⟩] "A").1,
   (at_most_one_open_position ⟨.both, 100000, 10, 1 / 10, 1 / 20⟩ 0 100000
      [] "A").2 ⟨"A", .buy, 1, "r", some 100, none⟩ 100000
      [("A", ⟨"A", 100, 100, 0, "A-0"⟩)] rfl (by decide)⟩

/-- C9 (confirmed): the risk/reward rejection branch of the risk manager is
unreachable: the computed ratio is abs(target-stop)/abs(stop-target), which
equals 1 whenever the two differ (and is a NaN comparison, hence false, when
they coincide), so riskRewardRejects is constantly false and assessRisk
approves exactly the signals with confidence at least 0.25, as an
order-preserving subsequence of its input. -/
theorem risk_filter_passthrough :
    (∀ s : TradingSignal, riskRewardRejects s = false) ∧
    (∀ t sl : ℚ, t ≠ sl → |t - sl| / |sl - t| = 1) ∧
    (∀ signals : List TradingSignal,
      assessRisk signals =
        signals.filter (fun s => decide ((1 : ℚ) / 4 ≤ s.confidence)) ∧
      (assessRisk signals).Sublist signals) := by
  have hratio : ∀ t sl : ℚ, t ≠ sl → |t - sl| / |sl - t| = 1 := by
    intro t sl h
    rw [abs_sub_comm t sl, div_self]
    rw [ne_eq, abs_eq_zero, sub_eq_zero]
    exact fun hh => h hh.symm
  have hrej : ∀ s : TradingSignal, riskRewardRejects s = false := by
    intro s
    obtain ⟨sym, act, conf, rsn, tp, sl⟩ := s
    unfold riskRewardRejects
    cases sl with
    | none => rfl
    | some slv =>
      cases tp with
      | none => simp [jsTruthy]
      | some tv =>
        simp only [jsTruthy]
        by_cases hz : slv = 0
        · simp [hz]
        · by_cases htz : tv = 0
          · simp [htz]
          · by_cases heq : |slv - tv| = 0
            · simp [hz, htz, heq]
            · have h1 : |tv - slv| / |slv - tv| = 1 := by
                refine hratio tv slv (fun hh => heq ?_)
                rw [hh]
                simp
              simp only [bne, hz, htz, heq, h1]
              norm_num [hz, htz, heq, h1]
  refine ⟨hrej, hratio, fun signals => ⟨?_, List.filter_sublist signals⟩⟩
  unfold assessRisk
  refine List.filter_congr (fun s _ => ?_)
  unfold riskApproved
  rw [hrej s]
  simp only [Bool.not_false, Bool.and_true, ← decide_not, not_lt]

/-- C9 witness: the pieces of risk_filter_passthrough instantiated at a
concrete signal with distinct target and stop prices. -/
theorem risk_filter_passthrough_witness :
    riskRewardRejects ⟨"A", .buy, 1, "r", some 110, some 90⟩ = false ∧
    |(110 : ℚ) - 90| / |(90 : ℚ) - 110| = 1 ∧
    assessRisk [⟨"A", .buy, 1, "r", some 110, some 90⟩] =
      List.filter (fun s => decide ((1 : ℚ) / 4 ≤ s.confidence))
        [⟨"A", .buy, 1, "r", some 110, some 90⟩] :=
  ⟨risk_filter_passthrough.1 _,
   risk_filter_passthrough.2.1 110 90 (by norm_num),
   (risk_filter_passthrough.2.2 [⟨"A", .buy, 1, "r", some 110, some 90⟩]).1⟩

/-- C2 (code_bug): with strategyMode mean_reversion the backtest signal
generation still produces a momentum signal (reason Golden cross detected) in
addition to the mean-reversion one, because the Backtester constructor never
passes the config mode to the TradingStrategy; the generated signals are
identical for every config. -/
theorem strategy_mode_ignored_eval :
    ((backtestDaySignals ⟨.mean_reversion, 100000, 10, 1 / 10, 1 / 20⟩
        [⟨"A", 115, 0, some 25, some 110, some 100⟩]).map
      (fun s => s.reason)) = ["RSI oversold", "Golden cross detected"] ∧
    ∀ (cfg cfg' : BacktestConfig) (md : List MarketData),
      backtestDaySignals cfg md = backtestDaySignals cfg' md := by
  refine ⟨?_, fun cfg cfg' md => rfl⟩
  norm_num [backtestDaySignals, generateSignals, assessRisk, meanReversionStrategy,
    momentumStrategy, jsTruthy, calculateConfidence, riskApproved,
    riskRewardRejects, round2, min_def, abs, round_eq]

/-- C6 (corrected): calculateRSI computes per-step gains and losses, seeds
the average gain/loss with the simple mean of the first period changes,
applies Wilder smoothing avg = (avg*(period-1)+value)/period for each
subsequent step and returns the 2-dp rounding of 100 - 100/(1+avgGain/avgLoss)
(specRSI); it returns exactly 50 whenever the prices list has fewer than
period+1 elements, and exactly 100 whenever the smoothed average loss is 0. -/
theorem calculateRSI_spec :
    ∀ (prices : List ℚ) (period : ℕ),
      calculateRSI prices period = specRSI prices period ∧
      (prices.length < period + 1 → calculateRSI prices period = 50) ∧
      (period + 1 ≤ prices.length → rsiAvgLoss prices period = 0 →
        calculateRSI prices period = 100) := by
  intro prices period
  have heq : calculateRSI prices period = specRSI prices period := rfl
  refine ⟨heq, ?_, ?_⟩
  · intro h
    unfold calculateRSI
    rw [if_pos h]
  · intro h hl
    rw [heq]
    unfold specRSI
    rw [if_neg (by omega), if_pos hl]

/-- C6 witness: the characterization applied at concrete inputs: a 4-price
series with period 2, a too-short series, and a flat series with zero
average loss. -/
theorem calculateRSI_spec_witness :
    calculateRSI [0, 1, 0, 2] 2 = specRSI [0, 1, 0, 2] 2 ∧
    calculateRSI [1] 2 = 50 ∧ calculateRSI [5, 5, 5] 1 = 100 :=
  ⟨(calculateRSI_spec [0, 1, 0, 2] 2).1,
   (calculateRSI_spec [1] 2).2.1 (by norm_num),
   (calculateRSI_spec [5, 5, 5] 1).2.2 (by norm_num)
     (by norm_num [rsiAvgLoss, wilderSmooth, wilderStep, priceChanges])⟩

/-- C6 counterexample: at prices [0,1,0,2] with period 2 the code returns
83.33, the 2-dp rounding of the claimed formula value 250/3, not the formula
value itself, refuting the claim that calculateRSI returns
100 - 100/(1+avgGain/avgLoss) exactly. -/
theorem calculateRSI_rounding_cex :
    calculateRSI [0, 1, 0, 2] 2 = 8333 / 100 ∧
    rsiAvgGain [0, 1, 0, 2] 2 = 5 / 4 ∧ rsiAvgLoss [0, 1, 0, 2] 2 = 1 / 4 ∧
    calculateRSI [0, 1, 0, 2] 2 ≠
      100 - 100 / (1 + rsiAvgGain [0, 1, 0, 2] 2 / rsiAvgLoss [0, 1, 0, 2] 2) := by
  norm_num [calculateRSI, rsiAvgGain, rsiAvgLoss, wilderSmooth, wilderStep,
    priceChanges, round2, round_eq, abs]

/-- C10 (confirmed): on an empty prices list with period at least 1,
calculateSMA, calculateEMA and calculateBollinger all take the
insufficient-history branch and its read of prices[prices.length - 1] is out
of bounds (none); on any non-empty list each returns a value. -/
theorem indicator_empty_input_guard :
    ∀ period : ℕ, 1 ≤ period →
      (calculateSMA [] period = none ∧ calculateEMA [] period = none ∧
        calculateBollinger [] period = none) ∧
      ∀ (p : ℚ) (rest : List ℚ),
        (calculateSMA (p :: rest) period).isSome ∧
        (calculateEMA (p :: rest) period).isSome ∧
        (calculateBollinger (p :: rest) period).isSome := by
  intro period hp
  have hlen : ([] : List ℚ).length < period := by simpa using hp
  constructor
  · refine ⟨?_, ?_, ?_⟩ <;>
      simp [calculateSMA, calculateEMA, calculateBollinger, hlen] <;> omega
  · intro p rest
    have hsome : ((p :: rest).getLast?).isSome := by
      rw [List.getLast?_isSome]
      simp
    refine ⟨?_, ?_, ?_⟩
    · unfold calculateSMA
      split
      · exact hsome
      · simp
    · unfold calculateEMA
      split
      · exact hsome
      · simp
    · unfold calculateBollinger
      split
      · simp [hsome]
      · simp

/-- C10 witness: the guard applied at period 20 with the empty list and the
singleton list. -/
theorem indicator_empty_input_guard_witness :
    (calculateSMA [] 20 = none ∧ calculateEMA [] 20 = none ∧
      calculateBollinger [] 20 = none) ∧
    ((calculateSMA [(1 : ℚ)] 20).isSome ∧ (calculateEMA [(1 : ℚ)] 20).isSome ∧
      (calculateBollinger [(1 : ℚ)] 20).isSome) :=
  ⟨(indicator_empty_input_guard 20 (by norm_num)).1,
   (indicator_empty_input_guard 20 (by norm_num)).2 1 []⟩

/-- C8 (corrected): each indicator rounds only its own return value to 2 dp,
but the composition reuses already-rounded outputs: calculateSMA returns the
rounding of the exact window mean, calculateEMA seeds its recursion with the
ROUNDED SMA of the first period prices, and calculateBollinger computes its
variance about the ROUNDED middle band. -/
theorem indicator_rounding_pipeline :
    ∀ (prices : List ℚ) (period : ℕ), 1 ≤ period → period ≤ prices.length →
      calculateSMA prices period = some (round2 (windowMean prices period)) ∧
      calculateEMA prices period =
        some (round2 (emaLoop prices period
          (round2 ((prices.take period).sum / (period : ℚ))))) ∧
      calculateBollinger prices period =
        some (round2 (windowMean prices period),
          ((jsSliceLast prices period).map
            (fun p => (p - round2 (windowMean prices period)) ^ 2)).sum /
            (period : ℚ)) := by
  intro prices period h1 h2
  have hnlt : ¬ prices.length < period := not_lt.mpr h2
  have hsma : calculateSMA prices period = some (round2 (windowMean prices period)) := by
    unfold calculateSMA windowMean
    rw [if_neg hnlt]
  have htake : (prices.take period).length = period := by
    rw [List.length_take]
    omega
  have hseed : calculateSMA (prices.take period) period =
      some (round2 ((prices.take period).sum / (period : ℚ))) := by
    unfold calculateSMA
    rw [if_neg (by rw [htake]; exact lt_irrefl _)]
    have hslice : jsSliceLast (prices.take period) period = prices.take period := by
      unfold jsSliceLast
      rw [if_neg (by omega), htake]
      simp
    rw [hslice]
  refine ⟨hsma, ?_, ?_⟩
  · unfold calculateEMA
    rw [if_neg hnlt, hseed]
    rfl
  · unfold calculateBollinger
    rw [if_neg hnlt, hsma]
    rfl

/-- C8 witness: the pipeline characterization applied at a concrete 3-price
series with period 2. -/
theorem indicator_rounding_pipeline_witness :
    calculateSMA [(1 : ℚ), 2, 4] 2 = some (round2 (windowMean [(1 : ℚ), 2, 4] 2)) ∧
    calculateEMA [(1 : ℚ), 2, 4] 2 =
      some (round2 (emaLoop [(1 : ℚ), 2, 4] 2
        (round2 (([(1 : ℚ), 2, 4].take 2).sum / (2 : ℚ))))) ∧
    calculateBollinger [(1 : ℚ), 2, 4] 2 =
      some (round2 (windowMean [(1 : ℚ), 2, 4] 2),
        ((jsSliceLast [(1 : ℚ), 2, 4] 2).map
          (fun p => (p - round2 (windowMean [(1 : ℚ), 2, 4] 2)) ^ 2)).sum /
          (2 : ℚ)) := by
  have h := indicator_rounding_pipeline [(1 : ℚ), 2, 4] 2 (by norm_num) (by norm_num)
  exact ⟨h.1, h.2.1, h.2.2⟩

/-- C8 counterexample: at prices [4312/3125, 0, 0, 0, 0] with period 4 the
code returns 0.20 because the EMA recursion is seeded with the rounded SMA
0.34, while seeding with the exact mean 0.34496 as the claim states would
give 0.21, refuting the claim that the EMA recursion is seeded with the
exact (unrounded) mean. -/
theorem ema_rounded_seed_cex :
    calculateEMA [4312 / 3125, 0, 0, 0, 0] 4 = some (1 / 5) ∧
    emaExactSeed [4312 / 3125, 0, 0, 0, 0] 4 = 21 / 100 ∧
    calculateEMA [4312 / 3125, 0, 0, 0, 0] 4 ≠
      some (emaExactSeed [4312 / 3125, 0, 0, 0, 0] 4) := by
  norm_num [calculateEMA, calculateSMA, emaExactSeed, emaLoop, jsSliceLast,
    round2, round_eq]

/-- C1 (code_bug): with one open position of quantity 1 at entry price 100
and a constant close price of 110, two consecutive mark-to-market passes of
the simulation loop add the same unrealized P&L of 10 twice: the recorded
capital goes from 90000 to 90020, not to 90010 = cash plus the unrealized
P&L counted once as the claim states. -/
theorem mtm_double_count_eval :
    mtmUpdate (fun _ => some 110)
      (mtmUpdate (fun _ => some 110) 90000 [("A", ⟨"A", 1, 100, 0, "A-0"⟩)])
      [("A", ⟨"A", 1, 100, 0, "A-0"⟩)] = 90020 ∧
    (90020 : ℚ) ≠ 90000 + ((1 : ℚ) * 110 - (1 : ℚ) * 100) := by
  constructor
  · norm_num [mtmUpdate]
  · norm_num

/-- C3 (code_bug): in the scenario initialCapital 100000, positionSizePercent
10, slippagePercent 0, commissionPercent 0.1, with a BUY executed at 100 and
a matching SELL executed at 110, the BUY quantity is 100 but the recorded
SELL pnl is 978 = 1000 - 2*11 (the exit commission subtracted twice), not
979 = 1000 - (10 + 11) (entry commission plus exit commission) as the claim
states. -/
theorem commission_double_exit_eval :
    ((processSignal ⟨.both, 100000, 10, 1 / 10, 0⟩ 1
        (processSignal ⟨.both, 100000, 10, 1 / 10, 0⟩ 0
          { capital := 100000, positions := [], trades := [] }
          ⟨"A", .buy, 1, "e", some 100, none⟩)
        ⟨"A", .sell, 1, "x", some 110, none⟩).trades.map
      (fun t => (t.quantity, t.pnl))) = [(100, none), (100, some 978)] ∧
    (978 : ℚ) ≠ 1000 - (100 * 100 * (1 / 10) / 100 + 110 * 100 * (1 / 10) / 100) := by
  constructor
  · norm_num [processSignal, canExecuteSignal, executeTrade, posHas, posGet,
      posSet, posDelete, List.find?]
  · norm_num

/-- C7 (confirmed): with zero commission and zero slippage, a BUY executed at
target price p followed by a SELL on the same symbol executed at the same
target price p produces a SELL trade whose recorded pnl is exactly 0, for
every capital, position size, date and prior position book. -/
theorem round_trip_zero_pnl :
    ∀ (cfg : BacktestConfig) (p cap cap2 : ℚ) (dateB dateS : ℕ)
      (sigB sigS : TradingSignal) (pos0 pos1 : List (String × Position))
      (tb : BacktestTrade),
      cfg.commission = 0 → cfg.slippage = 0 →
      sigB.action = .buy → sigB.targetPrice = some p →
      sigS.action = .sell → sigS.symbol = sigB.symbol →
      sigS.targetPrice = some p →
      executeTrade cfg sigB dateB cap pos0 = (some tb, pos1) →
      ∀ (ts : BacktestTrade) (pos2 : List (String × Position)),
        executeTrade cfg sigS dateS cap2 pos1 = (some ts, pos2) →
        ts.pnl = some 0 := by
  intro cfg p cap cap2 dateB dateS sigB sigS pos0 pos1 tb hcomm hslip hab
    hatp has hasym hstp hbuy ts pos2 hsell
  obtain ⟨bsym, bact, bconf, brsn, btp, bsl⟩ := sigB
  simp only at hab hatp hasym
  subst hab
  subst hatp
  unfold executeTrade at hbuy
  simp only at hbuy
  split at hbuy
  · exact absurd hbuy (by simp)
  · injection hbuy with h1 h2
    obtain ⟨ssym, sact2, sconf2, srsn2, stp2, ssl2⟩ := sigS
    simp only at has hasym hstp
    subst has
    subst hstp
    subst hasym
    unfold executeTrade at hsell
    simp only at hsell
    rw [← h2] at hsell
    simp only [posGet_posSet_self] at hsell
    injection hsell with h3 h4
    injection h3 with h3
    rw [← h3]
    simp only [hcomm, hslip]
    norm_num

/-- C7 witness: the round trip at price 100 with capital 100000 and position
size 10 percent: the BUY produces quantity 100 and the SELL records pnl 0. -/
theorem round_trip_zero_pnl_witness :
    executeTrade ⟨.both, 100000, 10, 0, 0⟩
        ⟨"A", .buy, 1, "e", some 100, none⟩ 0 100000 [] =
      (some ⟨"A" ++ "-" ++ toString (0 : ℕ), 0, "A", .buy, 100, 100, 0,
          none, none, "e"⟩,
        [("A", ⟨"A", 100, 100, 0, "A" ++ "-" ++ toString (0 : ℕ)⟩)]) ∧
    executeTrade ⟨.both, 100000, 10, 0, 0⟩
        ⟨"A", .sell, 1, "x", some 100, none⟩ 1 0
        [("A", ⟨"A", 100, 100, 0, "A" ++ "-" ++ toString (0 : ℕ)⟩)] =
      (some ⟨"A" ++ "-" ++ toString (1 : ℕ) ++ "-exit", 1, "A", .sell, 100,
          100, 0, some 0, some 0, "x"⟩, []) ∧
    (⟨"A" ++ "-" ++ toString (1 : ℕ) ++ "-exit", 1, "A", .sell, 100, 100, 0,
        some 0, some 0, "x"⟩ : BacktestTrade).pnl = some 0 := by
  have h1 : executeTrade ⟨.both, 100000, 10, 0, 0⟩
      ⟨"A", .buy, 1, "e", some 100, none⟩ 0 100000 [] =
      (some ⟨"A" ++ "-" ++ toString (0 : ℕ), 0, "A", .buy, 100, 100, 0,
          none, none, "e"⟩,
        [("A", ⟨"A", 100, 100, 0, "A" ++ "-" ++ toString (0 : ℕ)⟩)]) := by
    norm_num [executeTrade, posSet, posHas]
  have h2 : executeTrade ⟨.both, 100000, 10, 0, 0⟩
      ⟨"A", .sell, 1, "x", some 100, none⟩ 1 0
      [("A", ⟨"A", 100, 100, 0, "A" ++ "-" ++ toString (0 : ℕ)⟩)] =
      (some ⟨"A" ++ "-" ++ toString (1 : ℕ) ++ "-exit", 1, "A", .sell, 100,
          100, 0, some 0, some 0, "x"⟩, []) := by
    norm_num [executeTrade, posGet, posDelete, List.find?]
  exact ⟨h1, h2,
    round_trip_zero_pnl ⟨.both, 100000, 10, 0, 0⟩ 100 100000 0 0 1
      ⟨"A", .buy, 1, "e", some 100, none⟩ ⟨"A", .sell, 1, "x", some 100, none⟩
      [] _ _ rfl rfl rfl rfl rfl rfl rfl h1 _ _ h2⟩
